import Mathlib

/-!
Verification development for a Binance USDT-futures monitoring dashboard
(`order.py`): a poll–render loop that issues HMAC-SHA256-signed GET
requests, shapes the JSON responses into tables, and paginates them.

The Python source is shallowly embedded below: pure helper functions become
Lean functions; machine words are `Nat` with explicit `% 2^32`; Python
`float(...)` parsing is modelled as exact decimal parsing into `ℚ` (the
decimal-literal subset of Python's float syntax, which is what the exchange
API sends); a raised exception is modelled as `Option.none`; Streamlit /
pandas calls (rendering, `df.iloc` slicing, session state) are modelled as
pure data: an `iloc`-style slice is `List.drop`/`List.take`, and session
state is an explicit `Option Nat` argument.
-/

/-! ## UTF-8 encoding (Python `str.encode('utf-8')`) -/

/-- UTF-8 bytes of a single Unicode code point. -/
def utf8Char (c : Char) : List Nat :=
  let n := c.toNat
  if n < 128 then [n]
  else if n < 2048 then [192 + n / 64, 128 + n % 64]
  else if n < 65536 then [224 + n / 4096, 128 + n / 64 % 64, 128 + n % 64]
  else [240 + n / 262144, 128 + n / 4096 % 64, 128 + n / 64 % 64, 128 + n % 64]

/-- UTF-8 bytes of a string, as in Python's `s.encode('utf-8')`. -/
def utf8 (s : String) : List Nat :=
  s.data.flatMap utf8Char

/-! ## Lowercase hex encoding (Python `hexdigest()`) -/

/-- Lowercase hex digit of `n % 16`: code point 48 + d for digits,
87 + d (so 97 = `a` at d = 10) for the letter digits. -/
def hexDigit (n : Nat) : Char :=
  Char.ofNat (if n % 16 < 10 then 48 + n % 16 else 87 + n % 16)

/-- The sixteen lowercase hexadecimal digit characters. -/
def lowerHexChars : List Char :=
  (List.range 16).map hexDigit

/-- Two lowercase hex characters per byte, as in Python's `hexdigest()`. -/
def toHexChars : List Nat → List Char
  | [] => []
  | b :: rest => hexDigit (b / 16) :: hexDigit (b % 16) :: toHexChars rest

/-- Lowercase hex string of a byte list. -/
def toHex (bs : List Nat) : String :=
  String.mk (toHexChars bs)

/-! ## SHA-256 (the `hashlib.sha256` primitive used by `hmac.new`) -/

/-- Truncation to a 32-bit word. -/
def w32 (n : Nat) : Nat := n % 4294967296

/-- 32-bit right rotation (input assumed `< 2^32`). -/
def rotr (n x : Nat) : Nat :=
  Nat.lor (x >>> n) (w32 (x <<< (32 - n)))

/-- Bitwise complement on 32-bit words. -/
def not32 (x : Nat) : Nat := Nat.xor x 4294967295

def smallSigma0 (x : Nat) : Nat := Nat.xor (Nat.xor (rotr 7 x) (rotr 18 x)) (x >>> 3)

def smallSigma1 (x : Nat) : Nat := Nat.xor (Nat.xor (rotr 17 x) (rotr 19 x)) (x >>> 10)

def bigSigma0 (x : Nat) : Nat := Nat.xor (Nat.xor (rotr 2 x) (rotr 13 x)) (rotr 22 x)

def bigSigma1 (x : Nat) : Nat := Nat.xor (Nat.xor (rotr 6 x) (rotr 11 x)) (rotr 25 x)

def chFun (x y z : Nat) : Nat := Nat.xor (Nat.land x y) (Nat.land (not32 x) z)

def majFun (x y z : Nat) : Nat :=
  Nat.xor (Nat.xor (Nat.land x y) (Nat.land x z)) (Nat.land y z)

/-- The 64 SHA-256 round constants. -/
def sha256K : List Nat :=
  [1116352408, 1899447441, 3049323471, 3921009573, 961987163, 1508970993,
   2453635748, 2870763221, 3624381080, 310598401, 607225278, 1426881987,
   1925078388, 2162078206, 2614888103, 3248222580, 3835390401, 4022224774,
   264347078, 604807628, 770255983, 1249150122, 1555081692, 1996064986,
   2554220882, 2821834349, 2952996808, 3210313671, 3336571891, 3584528711,
   113926993, 338241895, 666307205, 773529912, 1294757372, 1396182291,
   1695183700, 1986661051, 2177026350, 2456956037, 2730485921, 2820302411,
   3259730800, 3345764771, 3516065817, 3600352804, 4094571909, 275423344,
   430227734, 506948616, 659060556, 883997877, 958139571, 1322822218,
   1537002063, 1747873779, 1955562222, 2024104815, 2227730452, 2361852424,
   2428436474, 2756734187, 3204031479, 3329325298]

/-- SHA-256 working state: eight 32-bit words. -/
structure Hash8 where
  a : Nat
  b : Nat
  c : Nat
  d : Nat
  e : Nat
  f : Nat
  g : Nat
  h : Nat

/-- Initial SHA-256 hash value. -/
def initHash : Hash8 :=
  ⟨1779033703, 3144134277, 1013904242, 2773480762,
   1359893119, 2600822924, 528734635, 1541459225⟩

/-- Big-endian bytes of a 32-bit word. -/
def wordBytes (w : Nat) : List Nat :=
  [w / 16777216 % 256, w / 65536 % 256, w / 256 % 256, w % 256]

/-- Final digest serialization: eight big-endian words, 32 bytes. -/
def digestBytes (s : Hash8) : List Nat :=
  wordBytes s.a ++ wordBytes s.b ++ wordBytes s.c ++ wordBytes s.d ++
  wordBytes s.e ++ wordBytes s.f ++ wordBytes s.g ++ wordBytes s.h

/-- Big-endian 32-bit word at word index `i` of a 64-byte block. -/
def beWordAt (block : List Nat) (i : Nat) : Nat :=
  block.getD (4 * i) 0 * 16777216 + block.getD (4 * i + 1) 0 * 65536 +
  block.getD (4 * i + 2) 0 * 256 + block.getD (4 * i + 3) 0

/-- Extend the 16-word message schedule by `n` further words. -/
def extendW : Nat → List Nat → List Nat
  | 0, w => w
  | n + 1, w =>
      let i := w.length
      let nw := w32 (w.getD (i - 16) 0 + smallSigma0 (w.getD (i - 15) 0) +
                     w.getD (i - 7) 0 + smallSigma1 (w.getD (i - 2) 0))
      extendW n (w ++ [nw])

/-- One SHA-256 compression round with constant/schedule pair `kw`. -/
def roundStep (s : Hash8) (kw : Nat × Nat) : Hash8 :=
  let t1 := w32 (s.h + bigSigma1 s.e + chFun s.e s.f s.g + kw.1 + kw.2)
  let t2 := w32 (bigSigma0 s.a + majFun s.a s.b s.c)
  ⟨w32 (t1 + t2), s.a, s.b, s.c, w32 (s.d + t1), s.e, s.f, s.g⟩

/-- Compress one 64-byte block into the running hash. -/
def compressBlock (hs : Hash8) (block : List Nat) : Hash8 :=
  let w16 := (List.range 16).map (beWordAt block)
  let w := extendW 48 w16
  let f := (sha256K.zip w).foldl roundStep hs
  ⟨w32 (hs.a + f.a), w32 (hs.b + f.b), w32 (hs.c + f.c), w32 (hs.d + f.d),
   w32 (hs.e + f.e), w32 (hs.f + f.f), w32 (hs.g + f.g), w32 (hs.h + f.h)⟩

/-- Big-endian 64-bit length field of the padding. -/
def lengthBytes (n : Nat) : List Nat :=
  [n / 72057594037927936 % 256, n / 281474976710656 % 256,
   n / 1099511627776 % 256, n / 4294967296 % 256,
   n / 16777216 % 256, n / 65536 % 256, n / 256 % 256, n % 256]

/-- SHA-256 padding: `0x80`, zeros to 56 mod 64, then the bit length. -/
def padMessage (msg : List Nat) : List Nat :=
  let zeros := (119 - msg.length % 64) % 64
  msg ++ 128 :: List.replicate zeros 0 ++ lengthBytes (8 * msg.length)

/-- Split a byte list into 64-byte blocks. -/
def toBlocks (l : List Nat) : List (List Nat) :=
  if h : l = [] then [] else
    l.take 64 :: toBlocks (l.drop 64)
termination_by l.length
decreasing_by
  simp only [List.length_drop]
  have : 0 < l.length := List.length_pos.mpr h
  omega

/-- SHA-256 digest (32 bytes) of a byte list. -/
def sha256 (msg : List Nat) : List Nat :=
  digestBytes ((toBlocks (padMessage msg)).foldl compressBlock initHash)

/-! ## HMAC-SHA256 (Python `hmac.new(key, msg, hashlib.sha256)`) -/

/-- HMAC-SHA256 digest (32 bytes), block size 64. -/
def hmacSha256 (key msg : List Nat) : List Nat :=
  let k0 := if 64 < key.length then sha256 key else key
  let kp := k0 ++ List.replicate (64 - k0.length) 0
  let ipad := kp.map (fun b => Nat.xor b 54)
  let opad := kp.map (fun b => Nat.xor b 92)
  sha256 (opad ++ sha256 (ipad ++ msg))

/-! ## `urllib.parse.urlencode` and `sign_request` -/

/-- Uppercase hex digit of `n % 16` (Python percent-encoding uses
uppercase): code point 48 + d for digits, 55 + d (so 65 = `A` at d = 10)
for the letter digits. -/
def upperHexDigit (n : Nat) : Char :=
  Char.ofNat (if n % 16 < 10 then 48 + n % 16 else 55 + n % 16)

/-- Bytes left unencoded by `urllib.parse.quote_plus` (default `safe=''`):
ASCII alphanumerics and `_`, `.`, `-`, `~`. -/
def isSafeByte (b : Nat) : Bool :=
  (48 ≤ b && b ≤ 57) || (65 ≤ b && b ≤ 90) || (97 ≤ b && b ≤ 122) ||
  b == 95 || b == 46 || b == 45 || b == 126

/-- `%XX` encoding of one byte, uppercase hex as in `urllib.parse.quote`. -/
def percentEncodeByte (b : Nat) : List Char :=
  ['%', upperHexDigit (b / 16), upperHexDigit (b % 16)]

/-- Python `urllib.parse.quote_plus`: percent-encode the UTF-8 bytes,
spaces as `+`. -/
def quote_plus (s : String) : String :=
  String.mk ((utf8 s).flatMap (fun b =>
    if b == 32 then ['+']
    else if isSafeByte b then [Char.ofNat b]
    else percentEncodeByte b))

/-- Python `urllib.parse.urlencode` over an insertion-ordered mapping
(values already stringified): `k1=v1&k2=v2&...` with `quote_plus` on each
key and value. -/
def urlencode (params : List (String × String)) : String :=
  String.intercalate "&" (params.map (fun kv => quote_plus kv.1 ++ "=" ++ quote_plus kv.2))

/-- `sign_request(params, secret_key)` from `order.py`: HMAC-SHA256 of the
UTF-8 bytes of the URL-encoded query string, keyed by the UTF-8 bytes of
the secret, as a lowercase hex digest. -/
def sign_request (params : List (String × String)) (secret_key : String) : String :=
  toHex (hmacSha256 (utf8 secret_key) (utf8 (urlencode params)))

/-! ## Python `dict` as an insertion-ordered association list -/

/-- Python `d[k] = v` on an insertion-ordered dict: replace in place if the
key exists, otherwise append at the end. -/
def pyDictSet (d : List (String × String)) (k v : String) : List (String × String) :=
  if (d.lookup k).isSome then d.map (fun kv => if kv.1 = k then (k, v) else kv)
  else d ++ [(k, v)]

/-- Python `d.update(e)`: apply `d[k] = v` for each pair of `e` in order. -/
def pyDictUpdate (d : List (String × String)) : List (String × String) → List (String × String)
  | [] => d
  | (k, v) :: rest => pyDictUpdate (pyDictSet d k v) rest

/-! ## `signed_get` request construction and the four endpoint wrappers -/

/-- An outgoing HTTP GET request: endpoint path, ordered query parameters,
headers. -/
structure Request where
  endpoint : String
  params : List (String × String)
  headers : List (String × String)

/-- Request construction in `signed_get(endpoint, api_key, secret_key,
extra_params)`: start from `{'timestamp': ts}`, merge `extra_params` when
given, compute the signature over that merged set, then set
`params['signature']`. The current-time call is made explicit as the
argument `ts`. -/
def signed_get (endpoint api_key secret_key : String) (ts : Nat)
    (extra_params : Option (List (String × String))) : Request :=
  let params0 := [("timestamp", toString ts)]
  let params :=
    match extra_params with
    | some e => pyDictUpdate params0 e
    | none => params0
  { endpoint := endpoint,
    params := pyDictSet params "signature" (sign_request params secret_key),
    headers := [("X-MBX-APIKEY", api_key)] }

def get_account_info (api_key secret_key : String) (ts : Nat) : Request :=
  signed_get "/fapi/v2/account" api_key secret_key ts none

def get_positions (api_key secret_key : String) (ts : Nat) : Request :=
  signed_get "/fapi/v2/positionRisk" api_key secret_key ts none

def get_open_orders (api_key secret_key : String) (ts : Nat) : Request :=
  signed_get "/fapi/v1/openOrders" api_key secret_key ts none

def get_position_history (api_key secret_key : String) (ts : Nat) : Request :=
  signed_get "/fapi/v1/userTrades" api_key secret_key ts (some [("limit", "50")])

/-! ## Python `float(...)` on decimal strings, and `f"{x:.4f}"` -/

/-- Numeric value of a digit-character list, most significant first. -/
def digitsToNat (ds : List Char) : Nat :=
  ds.foldl (fun acc c => 10 * acc + (c.toNat - 48)) 0

/-- The exact value of a parsed decimal literal, kept unreduced as
`num / 10 ^ exp` so that every comparison the code makes stays in integer
arithmetic. -/
structure PyFloat where
  num : Int
  exp : Nat
deriving DecidableEq

/-- The rational value a `PyFloat` denotes. -/
def PyFloat.val (p : PyFloat) : ℚ :=
  (p.num : ℚ) / 10 ^ p.exp

/-- Python `float(s)` on the decimal-literal subset of its grammar
(optional sign, digits, optional point and digits), parsed exactly;
`none` models the `ValueError` a non-numeric string raises. -/
def parseFloat (s : String) : Option PyFloat :=
  let cs := s.data
  let sign : Int := if cs.head? = some '-' then -1 else 1
  let cs := if cs.head? = some '-' ∨ cs.head? = some '+' then cs.tail else cs
  let intPart := cs.takeWhile Char.isDigit
  let rest := cs.dropWhile Char.isDigit
  match rest with
  | [] =>
      if intPart.isEmpty then none
      else some ⟨sign * (digitsToNat intPart : Int), 0⟩
  | '.' :: fracMore =>
      let fracPart := fracMore.takeWhile Char.isDigit
      let rest2 := fracMore.dropWhile Char.isDigit
      if rest2.isEmpty = false then none
      else if intPart.isEmpty && fracPart.isEmpty then none
      else some ⟨sign * ((digitsToNat intPart : Int) * 10 ^ fracPart.length +
                  (digitsToNat fracPart : Int)), fracPart.length⟩
  | _ => none

/-- Zero-pad a number below 10000 to four digits. -/
def pad4 (n : Nat) : String :=
  if n < 10 then "000" ++ toString n
  else if n < 100 then "00" ++ toString n
  else if n < 1000 then "0" ++ toString n
  else toString n

/-- `num / 10 ^ exp` scaled to four decimal places and rounded to the
nearest integer, ties to even (the rounding of Python's fixed-point
formatting). -/
def scale4 (num : Nat) (exp : Nat) : Nat :=
  if exp ≤ 4 then num * 10 ^ (4 - exp)
  else
    let d := 10 ^ (exp - 4)
    let q := num / d
    let r := num % d
    if 2 * r < d then q
    else if d < 2 * r then q + 1
    else if q % 2 = 0 then q else q + 1

/-- Python `f"{x:.4f}"` for a positive parsed value: four digits after
the decimal point. -/
def format4 (p : PyFloat) : String :=
  let n := scale4 p.num.toNat p.exp
  toString (n / 10000) ++ "." ++ pad4 (n % 10000)

/-! ## Open-order presentation: trigger condition and type labels -/

/-- The fields of an open-order JSON object read by the presenter, each
retrieved with `order.get(key, '')` (an absent field is the empty string). -/
structure RawOrder where
  type : String
  triggerPrice : String
  workingType : String
  side : String
deriving DecidableEq

/-- Reference-price label for `workingType == "MARK_PRICE"`. -/
def mark_price_label : String := "标记价格"

/-- Reference-price label for any other working type. -/
def last_price_label : String := "最新价格"

/-- The placeholder shown when no trigger condition applies. -/
def no_condition : String := "-"

/-- The trigger-condition derivation of the order loop in `order.py`:
`trigger_condition` starts as the placeholder; inside `try`,
`tp = float(triggerPrice)` and, when `tp > 0`, the comparison operator is
chosen from order type and side, the label from the working type, and the
string is `f"{label} {cmp} {tp:.4f}"`. A parse failure lands in
`except: pass`, keeping the placeholder. The value comparison `tp > 0` is
`0 < tp.num`, equivalent to `0 < tp.val` by `PyFloat.val_pos`. -/
def trigger_condition (o : RawOrder) : String :=
  match parseFloat o.triggerPrice with
  | none => no_condition
  | some tp =>
      if 0 < tp.num then
        let price_cmp :=
          if o.type = "TAKE_PROFIT_MARKET" ∨ o.type = "TAKE_PROFIT" then
            if o.side = "SELL" then ">=" else "<="
          else if o.type = "STOP_MARKET" ∨ o.type = "STOP" then
            if o.side = "SELL" then "<=" else ">="
          else "-"
        let trigger_label :=
          if o.workingType = "MARK_PRICE" then mark_price_label else last_price_label
        trigger_label ++ " " ++ price_cmp ++ " " ++ format4 tp
      else no_condition

/-- The fixed `type_map` dict of `order.py`. -/
def type_map : List (String × String) :=
  [("STOP_MARKET", "市价止损"), ("TAKE_PROFIT_MARKET", "市价止盈"),
   ("STOP", "限价止损"), ("TAKE_PROFIT", "限价止盈"),
   ("LIMIT", "限价委托"), ("MARKET", "市价委托")]

/-- `type_map.get(order_type, order_type)`: look the code up in the table,
fall back to the code itself. -/
def order_type_label (t : String) : String :=
  (type_map.lookup t).getD t

/-! ## Position filtering -/

/-- The position-risk fields the presenter projects; only `positionAmt`
(a decimal string) drives the filter. -/
structure Position where
  symbol : String
  positionAmt : String
  entryPrice : String
  markPrice : String
  unRealizedProfit : String
  leverage : String
  marginType : String
deriving DecidableEq

/-- `[p for p in positions if float(p['positionAmt']) != 0]`: the
comprehension evaluates `float` on each entry in order and raises on the
first non-numeric amount (modelled as `none`); otherwise it keeps exactly
the entries with non-zero parsed amount. The value comparison `!= 0` is
`a.num ≠ 0`, equivalent to `a.val ≠ 0` by `PyFloat.val_eq_zero`. -/
def active_positions : List Position → Option (List Position)
  | [] => some []
  | p :: rest =>
      match parseFloat p.positionAmt with
      | none => none
      | some a =>
          match active_positions rest with
          | none => none
          | some l => some (if a.num ≠ 0 then p :: l else l)

/-- Whether the position filter keeps an entry: its amount parses and the
parsed amount is non-zero. -/
def keepsPosition (p : Position) : Bool :=
  match parseFloat p.positionAmt with
  | some a => decide (a.num ≠ 0)
  | none => false

/-! ## Pagination (`paginated_table`) -/

/-- What one `paginated_table` call renders: the visible rows and, when a
page control is shown, the selected page and the page count. -/
structure PageView (α : Type) where
  visible : List α
  control : Option (Nat × Nat)

/-- `paginated_table(df, label, page_size=10)` from `order.py`, with the
table as a list of rows and `st.session_state.get(f"{label}_page", 1)`
made explicit as the `stored` argument: when the table fits in one page it
is shown whole with no page control; otherwise `pages = (total-1)//page_size + 1`,
`start = (page-1)*page_size`, and `df.iloc[start:start+page_size]` is
`drop`/`take` on the row list. -/
def paginated_table {α : Type} (df : List α) (stored : Option Nat) (page_size : Nat) :
    PageView α :=
  if df.length ≤ page_size then ⟨df, none⟩
  else
    let pages := (df.length - 1) / page_size + 1
    let page := stored.getD 1
    let start := (page - 1) * page_size
    ⟨(df.drop start).take page_size, some (page, pages)⟩

/-- The default `page_size` of `paginated_table`. -/
def default_page_size : Nat := 10

/-! ## JSON values, the `signed_get` parse fallback, and the refresh loop -/

/-- JSON values, for response bodies and error payloads. -/
inductive JsonValue where
  | obj : List (String × JsonValue) → JsonValue
  | arr : List JsonValue → JsonValue
  | str : String → JsonValue
  | num : ℚ → JsonValue
  | bool : Bool → JsonValue
  | null : JsonValue

/-- The error message of the `signed_get` parse fallback. -/
def json_parse_error_msg : String := "无法解析响应"

/-- Response handling at the end of `signed_get`: `try: return
response.json() except: return {"msg": "无法解析响应", "raw":
response.text}`. The HTTP layer's JSON parser is abstracted as the
`parse` argument (`none` models a raised parse error); the function is
total, so the caller never sees an exception. -/
def signed_get_body (parse : String → Option JsonValue) (body : String) : JsonValue :=
  match parse body with
  | some j => j
  | none => .obj [("msg", .str json_parse_error_msg), ("raw", .str body)]

/-- `account_info.get('msg', account_info)`: the payload interpolated into
the fatal error message. -/
def account_error_payload (account_info : List (String × JsonValue)) : JsonValue :=
  ((account_info.lookup "msg").getD (JsonValue.obj account_info))

/-- What one iteration of the `while True` body does, abstracted to the
account-summary check that gates it. -/
inductive CycleOutcome where
  | fatal : JsonValue → CycleOutcome
  | rendered : CycleOutcome

/-- The balance-field gate of the refresh loop: `if 'totalWalletBalance'
not in account_info: st.error(...); break`, else render the cycle. The
second component is whether the loop continues to the next cycle. -/
def refresh_cycle (account_info : List (String × JsonValue)) : CycleOutcome × Bool :=
  if (account_info.lookup "totalWalletBalance").isSome then (.rendered, true)
  else (.fatal (account_error_payload account_info), false)

/-- The `while True` polling loop, driven by the (finite) stream of
account-summary responses the exchange would return on successive cycles:
each cycle runs `refresh_cycle`; a `break` stops consuming the stream. -/
def poll_loop : List (List (String × JsonValue)) → List CycleOutcome
  | [] => []
  | info :: rest =>
      match refresh_cycle info with
      | (r, true) => r :: poll_loop rest
      | (r, false) => [r]

/-! ## Supporting lemmas -/

theorem hexDigit_mem (n : Nat) : hexDigit n ∈ lowerHexChars := by
  have hmm : n % 16 % 16 = n % 16 := Nat.mod_mod_of_dvd n dvd_rfl
  refine List.mem_map.mpr ⟨n % 16, List.mem_range.mpr (Nat.mod_lt _ (by norm_num)), ?_⟩
  unfold hexDigit
  rw [hmm]

theorem lowerHexChars_lower : ∀ c ∈ lowerHexChars, c.isDigit ∨ ('a' ≤ c ∧ c ≤ 'f') := by
  decide

theorem toHexChars_mem : ∀ (bs : List Nat) (c : Char), c ∈ toHexChars bs → c ∈ lowerHexChars
  | [], _, h => by simp [toHexChars] at h
  | b :: rest, c, h => by
      simp only [toHexChars, List.mem_cons] at h
      rcases h with h | h | h
      · exact h ▸ hexDigit_mem _
      · exact h ▸ hexDigit_mem _
      · exact toHexChars_mem rest c h

theorem toHexChars_length : ∀ bs : List Nat, (toHexChars bs).length = 2 * bs.length
  | [] => rfl
  | b :: rest => by
      simp only [toHexChars, List.length_cons, toHexChars_length rest]
      omega

theorem digestBytes_length (s : Hash8) : (digestBytes s).length = 32 := rfl

theorem sha256_length (msg : List Nat) : (sha256 msg).length = 32 :=
  digestBytes_length _

theorem hmacSha256_length (key msg : List Nat) : (hmacSha256 key msg).length = 32 :=
  sha256_length _

theorem pyDictSet_append (d : List (String × String)) (k v : String)
    (h : d.lookup k = none) : pyDictSet d k v = d ++ [(k, v)] := by
  simp [pyDictSet, h]

theorem PyFloat.val_pos (p : PyFloat) : 0 < p.val ↔ 0 < p.num := by
  unfold PyFloat.val
  rw [lt_div_iff₀ (by positivity : (0 : ℚ) < 10 ^ p.exp), zero_mul]
  exact Int.cast_pos

theorem PyFloat.val_eq_zero (p : PyFloat) : p.val = 0 ↔ p.num = 0 := by
  have hd : (10 : ℚ) ^ p.exp ≠ 0 := by positivity
  unfold PyFloat.val
  rw [div_eq_zero_iff]
  simp [hd, Int.cast_eq_zero]

/-! ## Claim theorems -/

/-- C1: `sign_request(P, S)` is the lowercase hex encoding of the
HMAC-SHA256 digest of the UTF-8 bytes of the URL-encoded canonical query
string of `P` (keys in the order provided), keyed by the UTF-8 bytes of
`S`; it is deterministic for fixed inputs and always a 64-character
lowercase hex string. -/
theorem sign_request_spec (P : List (String × String)) (S : String) :
    sign_request P S = toHex (hmacSha256 (utf8 S) (utf8 (urlencode P))) ∧
    sign_request P S = sign_request P S ∧
    (sign_request P S).length = 64 ∧
    ∀ c ∈ (sign_request P S).data,
      c ∈ lowerHexChars ∧ (c.isDigit ∨ ('a' ≤ c ∧ c ≤ 'f')) := by
  refine ⟨rfl, rfl, ?_, ?_⟩
  · show (toHexChars (hmacSha256 (utf8 S) (utf8 (urlencode P)))).length = 64
    rw [toHexChars_length, hmacSha256_length]
  · intro c hc
    have hm := toHexChars_mem _ c hc
    exact ⟨hm, lowerHexChars_lower c hm⟩

/-- C4: when the response body fails to parse as JSON, `signed_get` does
not propagate the exception but returns the structured fallback object
holding an error message and the raw response text. -/
theorem signed_get_body_spec (parse : String → Option JsonValue) (body : String)
    (h : parse body = none) :
    signed_get_body parse body =
      .obj [("msg", .str json_parse_error_msg), ("raw", .str body)] := by
  simp [signed_get_body, h]

theorem signed_get_body_spec_witness :
    signed_get_body (fun _ => none) "<html>gateway timeout</html>" =
      .obj [("msg", .str json_parse_error_msg),
            ("raw", .str "<html>gateway timeout</html>")] :=
  signed_get_body_spec (fun _ => none) "<html>gateway timeout</html>" rfl

/-- C5: when the account-summary object lacks `totalWalletBalance`, the
refresh loop renders a fatal error carrying the server-provided `msg` (or
the whole raw object when there is no `msg`) and stops: the remaining
polling cycles never run, and the step is total (no uncaught exception). -/
theorem poll_loop_missing_balance_spec (info : List (String × JsonValue))
    (rest : List (List (String × JsonValue)))
    (h : info.lookup "totalWalletBalance" = none) :
    poll_loop (info :: rest) =
      [.fatal ((info.lookup "msg").getD (.obj info))] := by
  simp [poll_loop, refresh_cycle, h, account_error_payload]

theorem poll_loop_missing_balance_spec_witness :
    poll_loop [[("code", .num (-2015)), ("msg", .str "Invalid API-key")],
               [("totalWalletBalance", .str "100.5")]] =
      [.fatal (.str "Invalid API-key")] :=
  poll_loop_missing_balance_spec
    [("code", .num (-2015)), ("msg", .str "Invalid API-key")]
    [[("totalWalletBalance", .str "100.5")]] rfl

/-- C7: the displayed order-type label comes from the fixed six-entry
`type_map` (STOP_MARKET, TAKE_PROFIT_MARKET, STOP, TAKE_PROFIT, LIMIT,
MARKET mapped to their locale labels), and any code outside the table
passes through unchanged. -/
theorem type_map_spec :
    order_type_label "STOP_MARKET" = "市价止损" ∧
    order_type_label "TAKE_PROFIT_MARKET" = "市价止盈" ∧
    order_type_label "STOP" = "限价止损" ∧
    order_type_label "TAKE_PROFIT" = "限价止盈" ∧
    order_type_label "LIMIT" = "限价委托" ∧
    order_type_label "MARKET" = "市价委托" ∧
    type_map.length = 6 ∧
    ∀ t : String, t ∉ type_map.map Prod.fst → order_type_label t = t := by
  refine ⟨rfl, rfl, rfl, rfl, rfl, rfl, rfl, ?_⟩
  intro t ht
  simp only [type_map, List.map_cons, List.mem_cons, List.map_nil] at ht
  push_neg at ht
  obtain ⟨h1, h2, h3, h4, h5, h6, -⟩ := ht
  simp [order_type_label, type_map, List.lookup,
        beq_eq_false_iff_ne.mpr h1, beq_eq_false_iff_ne.mpr h2,
        beq_eq_false_iff_ne.mpr h3, beq_eq_false_iff_ne.mpr h4,
        beq_eq_false_iff_ne.mpr h5, beq_eq_false_iff_ne.mpr h6]

theorem type_map_spec_witness :
    order_type_label "TRAILING_STOP_MARKET" = "TRAILING_STOP_MARKET" :=
  type_map_spec.2.2.2.2.2.2.2 "TRAILING_STOP_MARKET" (by decide)

/-- C10: with more rows than the page size and a stale stored page `p`
whose window start `(p-1)*K` is at or past the row count, the paginator's
slice is total and empty: it renders zero rows and raises nothing. -/
theorem paginated_table_stale_page_spec {α : Type} (df : List α) (K p : Nat)
    (hN : K < df.length) (hp : df.length ≤ (p - 1) * K) :
    (paginated_table df (some p) K).visible = [] := by
  simp only [paginated_table, if_neg (not_le.mpr hN), Option.getD_some]
  rw [List.drop_eq_nil_of_le hp, List.take_nil]

theorem paginated_table_stale_page_spec_witness :
    (paginated_table ([10, 20] : List Nat) (some 5) 1).visible = [] :=
  paginated_table_stale_page_spec [10, 20] 1 5 (by decide) (by decide)

/-- C2: with a present, numeric, positive trigger price, the derived
trigger condition is `"<label> <op> <price to 4 decimals>"`, the operator
chosen by order type and side (take-profit types: `>=` for SELL, `<=`
otherwise; stop types: `<=` for SELL, `>=` otherwise) and the label by the
working-price type; with an absent/non-numeric/non-positive trigger price
it is the no-condition placeholder. -/
theorem trigger_condition_spec (o : RawOrder) :
    (∀ tp : PyFloat, parseFloat o.triggerPrice = some tp → 0 < tp.val →
      trigger_condition o =
        (if o.workingType = "MARK_PRICE" then mark_price_label else last_price_label) ++ " " ++
        (if o.type = "TAKE_PROFIT_MARKET" ∨ o.type = "TAKE_PROFIT" then
          if o.side = "SELL" then ">=" else "<="
         else if o.type = "STOP_MARKET" ∨ o.type = "STOP" then
          if o.side = "SELL" then "<=" else ">="
         else "-") ++ " " ++ format4 tp) ∧
    (parseFloat o.triggerPrice = none → trigger_condition o = no_condition) ∧
    (∀ tp : PyFloat, parseFloat o.triggerPrice = some tp → tp.val ≤ 0 →
      trigger_condition o = no_condition) := by
  refine ⟨?_, ?_, ?_⟩
  · intro tp hp h0
    simp only [trigger_condition, hp, if_pos ((PyFloat.val_pos tp).mp h0)]
  · intro hp
    simp only [trigger_condition, hp]
  · intro tp hp hle
    have hn : ¬ 0 < tp.num := fun hc =>
      absurd ((PyFloat.val_pos tp).mpr hc) (not_lt.mpr hle)
    simp only [trigger_condition, hp, if_neg hn]

theorem trigger_condition_spec_witness :
    trigger_condition ⟨"STOP_MARKET", "50000.1", "MARK_PRICE", "SELL"⟩ =
      "标记价格 <= 50000.1000" := by
  have h := (trigger_condition_spec ⟨"STOP_MARKET", "50000.1", "MARK_PRICE", "SELL"⟩).1
    ⟨500001, 1⟩ (by decide) ((PyFloat.val_pos ⟨500001, 1⟩).mpr (by decide))
  exact h.trans (by decide)

/-- C9: a positive numeric trigger price on an order whose type is none of
the four directional conditional types (e.g. LIMIT or MARKET) does NOT
produce the no-condition placeholder: the operator slot degenerates to the
literal `"-"`, giving `"<label> - <price to 4 decimals>"`. -/
theorem trigger_condition_nondirectional_spec (o : RawOrder) (tp : PyFloat)
    (hp : parseFloat o.triggerPrice = some tp) (h0 : 0 < tp.val)
    (h1 : o.type ≠ "TAKE_PROFIT_MARKET") (h2 : o.type ≠ "TAKE_PROFIT")
    (h3 : o.type ≠ "STOP_MARKET") (h4 : o.type ≠ "STOP") :
    trigger_condition o ≠ no_condition ∧
    trigger_condition o =
      (if o.workingType = "MARK_PRICE" then mark_price_label else last_price_label) ++
        " - " ++ format4 tp := by
  have heq : trigger_condition o =
      (if o.workingType = "MARK_PRICE" then mark_price_label else last_price_label) ++
        " " ++ "-" ++ " " ++ format4 tp := by
    simp only [trigger_condition, hp, if_pos ((PyFloat.val_pos tp).mp h0)]
    simp [h1, h2, h3, h4]
  have hassoc :
      (if o.workingType = "MARK_PRICE" then mark_price_label else last_price_label) ++
        " " ++ "-" ++ " " ++ format4 tp =
      (if o.workingType = "MARK_PRICE" then mark_price_label else last_price_label) ++
        " - " ++ format4 tp := by
    rw [String.append_assoc _ (" " : String) ("-" : String),
        String.append_assoc _ (" " ++ "-" : String) (" " : String)]
    rfl
  refine ⟨?_, heq.trans hassoc⟩
  rw [heq]
  intro hcon
  have hlen := congrArg String.length hcon
  simp only [String.length_append] at hlen
  have hlab :
      (if o.workingType = "MARK_PRICE" then mark_price_label else last_price_label).length
        = 4 := by
    split <;> rfl
  rw [hlab] at hlen
  have e1 : (" " : String).length = 1 := rfl
  have e2 : ("-" : String).length = 1 := rfl
  have e3 : no_condition.length = 1 := rfl
  rw [e1, e2, e3] at hlen
  omega

theorem trigger_condition_nondirectional_spec_witness :
    trigger_condition ⟨"LIMIT", "5", "", "BUY"⟩ = "最新价格 - 5.0000" ∧
    trigger_condition ⟨"LIMIT", "5", "", "BUY"⟩ ≠ no_condition := by
  have h := trigger_condition_nondirectional_spec ⟨"LIMIT", "5", "", "BUY"⟩ ⟨5, 0⟩
    (by decide) ((PyFloat.val_pos ⟨5, 0⟩).mpr (by decide))
    (by decide) (by decide) (by decide) (by decide)
  exact ⟨h.2.trans (by decide), h.1⟩

/-- C3: with at most `K` rows the paginator shows the whole table with no
page control; with more than `K` rows the page count is `⌈N/K⌉`, the page
defaults to 1 when none is stored, and the visible slice is rows
`[(page-1)*K, page*K)`: at most `K` rows, all of them rows of the table at
in-range indices. -/
theorem paginated_table_spec {α : Type} (df : List α) (stored : Option Nat) (K : Nat)
    (hK : 0 < K) :
    (df.length ≤ K → paginated_table df stored K = ⟨df, none⟩) ∧
    (K < df.length →
      (paginated_table df stored K).control =
        some (stored.getD 1, (df.length + K - 1) / K) ∧
      (stored = none → (paginated_table df stored K).control =
        some (1, (df.length + K - 1) / K)) ∧
      (paginated_table df stored K).visible.length ≤ K ∧
      ∀ i, i < (paginated_table df stored K).visible.length →
        (paginated_table df stored K).visible[i]? = df[(stored.getD 1 - 1) * K + i]? ∧
        (stored.getD 1 - 1) * K + i < df.length) := by
  have hceil : K < df.length → (df.length - 1) / K + 1 = (df.length + K - 1) / K := by
    intro h
    have h1 : df.length + K - 1 = (df.length - 1) + K := by omega
    rw [h1, Nat.add_div_right _ hK]
  constructor
  · intro h
    simp [paginated_table, h]
  · intro h
    have hnle : ¬ df.length ≤ K := not_le.mpr h
    refine ⟨?_, ?_, ?_, ?_⟩
    · simp only [paginated_table, if_neg hnle]
      rw [hceil h]
    · intro hs
      subst hs
      simp only [paginated_table, if_neg hnle, Option.getD_none]
      rw [hceil h]
    · simp only [paginated_table, if_neg hnle]
      exact List.length_take_le _ _
    · intro i hi
      simp only [paginated_table, if_neg hnle] at hi ⊢
      have hiK : i < K := lt_of_lt_of_le hi (List.length_take_le _ _)
      constructor
      · rw [List.getElem?_take, if_pos hiK, List.getElem?_drop]
      · rw [List.length_take, List.length_drop] at hi
        omega

theorem paginated_table_spec_witness :
    (paginated_table ([10, 20, 30] : List Nat) none 2).control = some (1, 2) :=
  ((paginated_table_spec [10, 20, 30] none 2 (by decide)).2 (by decide)).1

/-- Helper for C6: a successful run of the position comprehension equals a
filter by non-zero parsed amount. -/
theorem active_positions_eq_filter : ∀ (ps : List Position) (l : List Position),
    active_positions ps = some l → l = ps.filter keepsPosition
  | [], l, h => by
      simp only [active_positions, Option.some.injEq] at h
      simp [← h]
  | p :: rest, l, h => by
      simp only [active_positions] at h
      cases hp : parseFloat p.positionAmt with
      | none => rw [hp] at h; simp at h
      | some a =>
          rw [hp] at h
          cases hr : active_positions rest with
          | none => rw [hr] at h; simp at h
          | some l' =>
              rw [hr] at h
              simp only [Option.some.injEq] at h
              have ih := active_positions_eq_filter rest l' hr
              subst h
              by_cases ha : a.num = 0
              · simp [ha, List.filter_cons, keepsPosition, hp, ← ih]
              · simp [ha, List.filter_cons, keepsPosition, hp, ← ih]

/-- C6: the position filter keeps exactly the entries whose amount parses
to a non-zero number: parsed amount 0 is excluded, any non-zero parsed
amount (positive or negative, however small) is included, and the
displayed list is precisely the non-zero filter of the input. -/
theorem active_positions_spec (ps l : List Position)
    (h : active_positions ps = some l) :
    l = ps.filter keepsPosition ∧
    (∀ p ∈ ps, ∀ a : PyFloat, parseFloat p.positionAmt = some a →
      a.val = 0 → p ∉ l) ∧
    (∀ p ∈ ps, ∀ a : PyFloat, parseFloat p.positionAmt = some a →
      a.val ≠ 0 → p ∈ l) := by
  have hf := active_positions_eq_filter ps l h
  refine ⟨hf, ?_, ?_⟩
  · intro p hp a ha h0 hmem
    rw [hf] at hmem
    have hpred := (List.mem_filter.mp hmem).2
    rw [keepsPosition, ha] at hpred
    simp [(PyFloat.val_eq_zero a).mp h0] at hpred
  · intro p hp a ha hne
    rw [hf]
    refine List.mem_filter.mpr ⟨hp, ?_⟩
    rw [keepsPosition, ha]
    simp only [decide_eq_true_eq]
    exact fun hc => hne ((PyFloat.val_eq_zero a).mpr hc)

theorem active_positions_spec_witness :
    ([⟨"BTCUSDT", "0.001", "", "", "", "", ""⟩] : List Position) =
      List.filter keepsPosition
        [⟨"BTCUSDT", "0.001", "", "", "", "", ""⟩, ⟨"ETHUSDT", "0", "", "", "", "", ""⟩] :=
  (active_positions_spec
    [⟨"BTCUSDT", "0.001", "", "", "", "", ""⟩, ⟨"ETHUSDT", "0", "", "", "", "", ""⟩]
    [⟨"BTCUSDT", "0.001", "", "", "", "", ""⟩] (by decide)).1

/-- C8: `signed_get` builds the parameter set by merging the extra
parameters into the timestamp-bearing set, signs exactly that merged set,
and appends the signature last (the signature is not part of the signed
query string); the trade-history wrapper passes exactly `limit=50` and the
other three wrappers pass no extra parameters. -/
theorem signed_get_params_spec (endpoint api_key secret_key : String) (ts : Nat)
    (extra : List (String × String))
    (h : (pyDictUpdate [("timestamp", toString ts)] extra).lookup "signature" = none) :
    (signed_get endpoint api_key secret_key ts (some extra)).params =
      pyDictUpdate [("timestamp", toString ts)] extra ++
        [("signature",
          sign_request (pyDictUpdate [("timestamp", toString ts)] extra) secret_key)] ∧
    (signed_get endpoint api_key secret_key ts none).params =
      [("timestamp", toString ts),
       ("signature", sign_request [("timestamp", toString ts)] secret_key)] ∧
    get_position_history api_key secret_key ts =
      signed_get "/fapi/v1/userTrades" api_key secret_key ts (some [("limit", "50")]) ∧
    (get_position_history api_key secret_key ts).params =
      [("timestamp", toString ts), ("limit", "50"),
       ("signature",
        sign_request [("timestamp", toString ts), ("limit", "50")] secret_key)] ∧
    get_account_info api_key secret_key ts =
      signed_get "/fapi/v2/account" api_key secret_key ts none ∧
    get_positions api_key secret_key ts =
      signed_get "/fapi/v2/positionRisk" api_key secret_key ts none ∧
    get_open_orders api_key secret_key ts =
      signed_get "/fapi/v1/openOrders" api_key secret_key ts none := by
  refine ⟨?_, rfl, rfl, rfl, rfl, rfl, rfl⟩
  show pyDictSet (pyDictUpdate [("timestamp", toString ts)] extra) "signature"
      (sign_request (pyDictUpdate [("timestamp", toString ts)] extra) secret_key) = _
  exact pyDictSet_append _ _ _ h

theorem signed_get_params_spec_witness :
    (signed_get "/fapi/v1/userTrades" "apikey" "secret" 1700000000000
        (some [("limit", "50")])).params =
      pyDictUpdate [("timestamp", toString 1700000000000)] [("limit", "50")] ++
        [("signature",
          sign_request (pyDictUpdate [("timestamp", toString 1700000000000)]
            [("limit", "50")]) "secret")] :=
  (signed_get_params_spec "/fapi/v1/userTrades" "apikey" "secret" 1700000000000
    [("limit", "50")] (by decide)).1
